import Mathlib

/-!
Shallow embedding of the Token-2022 GroupPointer extension module
(src/programs/token/src/extensions/group_pointer.rs): the extension
record accessor and the Initialize / Update instruction builders, with
theorems settling the specification claims about them.

Machine bytes are modelled as natural numbers; a 32-byte address is a
list of naturals of length 32.  The instruction scratch buffer is a map
from byte offset to an optional byte: the value none stands for an
uninitialized slot (the MaybeUninit state in the source), and some b for
a slot explicitly written with byte b.
-/

set_option autoImplicit false

namespace GroupPointerSpec

/-- A 32-byte address (the Pubkey type of the source), modelled as a list
of byte values of length exactly 32. -/
def Pubkey : Type := { l : List Nat // l.length = 32 }

instance : DecidableEq Pubkey := fun a b =>
  decidable_of_iff (a.val = b.val) Subtype.ext_iff.symm

/-- Modelled from the spec: the zero sentinel address used for absent
optional fields (Pubkey::default() in the source, which is not under
src/); all 32 bytes are zero. -/
def Pubkey.default : Pubkey := ⟨List.replicate 32 0, List.length_replicate 32 0⟩

/-- Modelled from the spec: the identity of the expected remote program
(the TOKEN_2022_PROGRAM_ID constant, which is not under src/).  The
claims only compare against it, so the concrete byte values are
immaterial; any fixed address works. -/
def TOKEN_2022_PROGRAM_ID : Pubkey := ⟨List.replicate 32 6, List.length_replicate 32 6⟩

/-- Modelled from the spec: one entry of the extension index embedded in
an account buffer, mapping an extension type tag to a byte offset and a
declared length within the buffer (the find(type_tag) -> (offset, len)
collaborator interface; the index machinery is not under src/). -/
structure ExtensionIndexEntry where
  type_tag : Nat
  offset : Nat
  len : Nat
deriving DecidableEq

/-- Modelled from the spec: the account / buffer abstraction (the
AccountInfo type of the source, which is not under src/): an address, a
declared owner, the raw data bytes, and the embedded extension index
exposed through the collaborator interface of the spec. -/
structure AccountInfo where
  key : Pubkey
  owner : Pubkey
  data : List Nat
  index : List ExtensionIndexEntry
deriving DecidableEq

/-- Modelled from the spec: the buffer ownership test, the collaborator
interface is_owned_by(owner) -> bool. -/
def AccountInfo.is_owned_by (a : AccountInfo) (program : Pubkey) : Bool :=
  a.owner = program

/-- The errors this module can surface.  InvalidAccountOwner and
InvalidAccountData are the two errors produced by the accessor (the spec
calls them InvalidOwner and InvalidData); Custom stands for the opaque
error codes the CPI channel may surface. -/
inductive ProgramError where
  | InvalidAccountOwner
  | InvalidAccountData
  | Custom (code : Nat)
deriving DecidableEq

/-- The result type of the fallible operations (ProgramResult in the
source). -/
def ProgramResult : Type := Except ProgramError Unit

instance : DecidableEq ProgramResult := fun a b =>
  match a, b with
  | Except.ok _, Except.ok _ => isTrue rfl
  | Except.ok _, Except.error _ => isFalse (fun h => Except.noConfusion h)
  | Except.error _, Except.ok _ => isFalse (fun h => Except.noConfusion h)
  | Except.error e, Except.error f =>
    if h : e = f then isTrue (by rw [h]) else
      isFalse (fun hh => h (by injection hh))

/-- One account reference attached to an instruction: address plus the
writable and signer flags (the AccountMeta type of the source, which is
not under src/; modelled from the spec data model of account reference
tuples). -/
structure AccountMeta where
  pubkey : Pubkey
  is_writable : Bool
  is_signer : Bool
deriving DecidableEq

/-- A writable, non-signer account reference (AccountMeta::writable). -/
def AccountMeta.writable (pubkey : Pubkey) : AccountMeta :=
  { pubkey := pubkey, is_writable := true, is_signer := false }

/-- A read-only signer account reference (AccountMeta::readonly_signer). -/
def AccountMeta.readonly_signer (pubkey : Pubkey) : AccountMeta :=
  { pubkey := pubkey, is_writable := false, is_signer := true }

/-- Modelled from the spec: a signer proof handed to the CPI channel
(the Signer seeds type of the source, which is not under src/); treated
as opaque data. -/
structure Signer where
  seeds : List (List Nat)
deriving DecidableEq

/-- A wire instruction: target program, ordered account references, and
the payload bytes (the Instruction type of the source). -/
structure Instruction where
  program_id : Pubkey
  accounts : List AccountMeta
  data : List Nat
deriving DecidableEq

/-- Modelled from the spec: the opaque CPI dispatch primitive, an
external collaborator taking the instruction, the account list and the
signer proofs and returning success or an opaque error.  The builders
are parametric in it. -/
def CpiChannel : Type :=
  Instruction → List AccountInfo → List Signer → ProgramResult

/-- The instruction scratch buffer: byte offset to optional byte, where
none is an uninitialized slot. -/
def Buffer : Type := Nat → Option Nat

/-- Modelled from the spec: the UNINIT_BYTE constant of the source (not
under src/), an uninitialized byte slot. -/
def UNINIT_BYTE : Option Nat := none

/-- The all-uninitialized scratch buffer ([UNINIT_BYTE; N] in the
source). -/
def uninitBuffer : Buffer := fun _ => UNINIT_BYTE

/-- Modelled from the spec: the write_bytes helper of the source (not
under src/), which writes the source bytes elementwise into a
destination slice, stopping at whichever of the slice and the source is
shorter.  Here the destination slice of the buffer is given by its
bounds lo (inclusive) and hi (exclusive). -/
def write_bytes (buf : Buffer) (lo hi : Nat) (src : List Nat) : Buffer :=
  fun i =>
    if lo ≤ i ∧ i < hi ∧ i - lo < src.length then some (src.getD (i - lo) 0)
    else buf i

/-- Reading the first len bytes of the scratch buffer as the final
payload, as the source does when slicing the buffer to its logical
length; a slot never written reads as an arbitrary value, fixed here as
zero (the source treats such a read as undefined; the initialization
theorems prove it never happens). -/
def freeze (buf : Buffer) (len : Nat) : List Nat :=
  (List.range len).map fun i => (buf i).getD 0

/-- Reading the first len bytes of the scratch buffer, detecting
uninitialized slots: the result is none when any slot below len was
never written. -/
def finalize (buf : Buffer) (len : Nat) : Option (List Nat) :=
  (List.range len).mapM buf

/-- The fixed-layout GroupPointer extension record: the authority that
can set the group address, and the account address that holds the
group. -/
structure GroupPointer where
  authority : Pubkey
  group_address : Pubkey
deriving DecidableEq

/-- The byte length of the GroupPointer record: two 32-byte addresses. -/
def GroupPointer.LEN : Nat := 64

/-- Modelled from the spec: the type tag of the GroupPointer extension
in the externally defined registry (ExtensionType::GroupPointer, not
under src/); the claims never depend on the concrete value. -/
def GroupPointer.TYPE_TAG : Nat := 20

/-- Reading a 32-byte address out of a buffer at a byte offset. -/
def pubkeyOfSlice (data : List Nat) (off : Nat) : Pubkey :=
  ⟨(List.range 32).map fun i => data.getD (off + i) 0, by simp⟩

/-- Modelled from the spec: the get_extension_from_bytes helper of the
source (not under src/): scans the embedded extension index for an entry
matching the target extension type tag; yields the fixed-size record
view only when the entry's declared length equals the record's fixed
size and the slice lies inside the buffer, and none otherwise. -/
def get_extension_from_bytes (data : List Nat) (index : List ExtensionIndexEntry) :
    Option GroupPointer :=
  match index.find? (fun e => e.type_tag = GroupPointer.TYPE_TAG) with
  | none => none
  | some e =>
    if e.len = GroupPointer.LEN ∧ e.offset + GroupPointer.LEN ≤ data.length then
      some { authority := pubkeyOfSlice data e.offset
             group_address := pubkeyOfSlice data (e.offset + 32) }
    else none

/-- The accessor read path (GroupPointer::from_account_info_unchecked):
checks buffer ownership first, then extracts the extension record from
the buffer bytes. -/
def GroupPointer.from_account_info_unchecked (account_info : AccountInfo) :
    Except ProgramError GroupPointer :=
  if ¬ (account_info.is_owned_by TOKEN_2022_PROGRAM_ID) then
    Except.error ProgramError.InvalidAccountOwner
  else
    match get_extension_from_bytes account_info.data account_info.index with
    | some gp => Except.ok gp
    | none => Except.error ProgramError.InvalidAccountData

/-- The Initialize builder input: the mint account plus the two optional
address fields. -/
structure Initialize where
  mint : AccountInfo
  authority : Option Pubkey
  group_address : Option Pubkey

/-- The 66-byte Initialize payload as built by Initialize::invoke_signed,
before slicing: discriminator 40 at offset 0, extension discriminator 0
at offset 1, authority bytes at 2..34 (zero sentinel when absent),
group_address bytes at 34..66 (zero sentinel when absent). -/
def Initialize.instruction_data (authority group_address : Option Pubkey) : Buffer :=
  let d0 := uninitBuffer
  let d1 := write_bytes d0 0 1 [40]
  let d2 := write_bytes d1 1 2 [0]
  let d3 := match authority with
    | some a => write_bytes d2 2 34 a.val
    | none => write_bytes d2 2 34 Pubkey.default.val
  match group_address with
  | some g => write_bytes d3 34 66 g.val
  | none => write_bytes d3 34 66 Pubkey.default.val

/-- The instruction built by Initialize::invoke_signed: the Token-2022
program, one writable account reference for the mint, and the payload
sliced to 66 bytes. -/
def Initialize.instruction (self : Initialize) : Instruction :=
  { program_id := TOKEN_2022_PROGRAM_ID
    accounts := [AccountMeta.writable self.mint.key]
    data := freeze (Initialize.instruction_data self.authority self.group_address) 66 }

/-- Initialize::invoke_signed: builds the instruction and dispatches it
through the CPI channel with the mint account and the caller's signer
proofs, returning the channel's result. -/
def Initialize.invoke_signed (cpi : CpiChannel) (self : Initialize)
    (signers : List Signer) : ProgramResult :=
  cpi (Initialize.instruction self) [self.mint] signers

/-- The Update builder input: the mint account, the authority account,
and the optional new group address. -/
structure Update where
  mint : AccountInfo
  authority : AccountInfo
  group_address : Option Pubkey

/-- The 34-byte Update payload as built by Update::invoke_signed, before
slicing: discriminator 40 at offset 0, extension discriminator 1 at
offset 1, group_address bytes at 2..34 (zero sentinel when absent). -/
def Update.instruction_data (group_address : Option Pubkey) : Buffer :=
  let d0 := uninitBuffer
  let d1 := write_bytes d0 0 1 [40]
  let d2 := write_bytes d1 1 2 [1]
  match group_address with
  | some g => write_bytes d2 2 34 g.val
  | none => write_bytes d2 2 34 Pubkey.default.val

/-- The instruction built by Update::invoke_signed: the Token-2022
program, the mint (writable) then the authority (read-only signer), and
the payload sliced to 34 bytes. -/
def Update.instruction (self : Update) : Instruction :=
  { program_id := TOKEN_2022_PROGRAM_ID
    accounts := [AccountMeta.writable self.mint.key,
                 AccountMeta.readonly_signer self.authority.key]
    data := freeze (Update.instruction_data self.group_address) 34 }

/-- Update::invoke_signed: builds the instruction and dispatches it
through the CPI channel with the mint and authority accounts and the
caller's signer proofs, returning the channel's result. -/
def Update.invoke_signed (cpi : CpiChannel) (self : Update)
    (signers : List Signer) : ProgramResult :=
  cpi (Update.instruction self) [self.mint, self.authority] signers

/-- A CPI channel that always reports success, used to observe that the
builders dispatch unconditionally. -/
def okChannel : CpiChannel := fun _ _ _ => Except.ok ()

/-- A concrete account whose declared owner is not the Token-2022
program. -/
def nonOwnedMint : AccountInfo :=
  { key := Pubkey.default, owner := Pubkey.default, data := [], index := [] }

/-- A concrete account owned by the Token-2022 program whose extension
index is empty. -/
def ownedEmptyAccount : AccountInfo :=
  { key := Pubkey.default, owner := TOKEN_2022_PROGRAM_ID, data := [], index := [] }

/-! Helper lemmas: byte-level characterization of the two payload
buffers, and the bridge between the freeze and finalize readings. -/

theorem write_bytes_in (buf : Buffer) (lo hi : Nat) (src : List Nat) (i : Nat)
    (h1 : lo ≤ i) (h2 : i < hi) (h3 : i - lo < src.length) :
    write_bytes buf lo hi src i = some (src.getD (i - lo) 0) :=
  if_pos ⟨h1, h2, h3⟩

theorem write_bytes_out (buf : Buffer) (lo hi : Nat) (src : List Nat) (i : Nat)
    (h : ¬(lo ≤ i ∧ i < hi ∧ i - lo < src.length)) :
    write_bytes buf lo hi src i = buf i :=
  if_neg h

/-- The value at each offset of the Initialize scratch buffer after the
full write sequence, as a closed-form case split on the offset. -/
theorem initialize_instruction_data_eq (a g : Option Pubkey) (i : Nat) :
    Initialize.instruction_data a g i =
      if i = 0 then some 40
      else if i = 1 then some 0
      else if i < 34 then some ((a.getD Pubkey.default).val.getD (i - 2) 0)
      else if i < 66 then some ((g.getD Pubkey.default).val.getD (i - 34) 0)
      else none := by
  have hA : (a.getD Pubkey.default).val.length = 32 := (a.getD Pubkey.default).prop
  have hG : (g.getD Pubkey.default).val.length = 32 := (g.getD Pubkey.default).prop
  have hshape : Initialize.instruction_data a g =
      write_bytes (write_bytes (write_bytes (write_bytes uninitBuffer 0 1 [40]) 1 2 [0])
        2 34 (a.getD Pubkey.default).val) 34 66 (g.getD Pubkey.default).val := by
    cases a <;> cases g <;> rfl
  rw [hshape]
  simp only [write_bytes, uninitBuffer, UNINIT_BYTE, List.length_cons, List.length_nil,
    hA, hG]
  split_ifs <;> first | rfl | omega | (subst_vars; rfl)

/-- The value at each offset of the Update scratch buffer after the full
write sequence, as a closed-form case split on the offset. -/
theorem update_instruction_data_eq (g : Option Pubkey) (i : Nat) :
    Update.instruction_data g i =
      if i = 0 then some 40
      else if i = 1 then some 1
      else if i < 34 then some ((g.getD Pubkey.default).val.getD (i - 2) 0)
      else none := by
  have hG : (g.getD Pubkey.default).val.length = 32 := (g.getD Pubkey.default).prop
  have hshape : Update.instruction_data g =
      write_bytes (write_bytes (write_bytes uninitBuffer 0 1 [40]) 1 2 [1])
        2 34 (g.getD Pubkey.default).val := by
    cases g <;> rfl
  rw [hshape]
  simp only [write_bytes, uninitBuffer, UNINIT_BYTE, List.length_cons, List.length_nil, hG]
  split_ifs <;> first | rfl | omega | (subst_vars; rfl)

theorem freeze_length (buf : Buffer) (len : Nat) : (freeze buf len).length = len := by
  simp [freeze]

theorem freeze_getElem (buf : Buffer) (len i : Nat) (h : i < (freeze buf len).length) :
    (freeze buf len)[i] = (buf i).getD 0 := by
  simp [freeze]

/-- The payload handed to the CPI channel by Initialize, as a flat byte
list: both discriminators followed by the two 32-byte address fields,
with the zero sentinel substituted for an absent optional field. -/
theorem initialize_payload_eq (self : Initialize) :
    self.instruction.data =
      40 :: 0 :: ((self.authority.getD Pubkey.default).val ++
        (self.group_address.getD Pubkey.default).val) := by
  have hA : (self.authority.getD Pubkey.default).val.length = 32 :=
    (self.authority.getD Pubkey.default).prop
  have hG : (self.group_address.getD Pubkey.default).val.length = 32 :=
    (self.group_address.getD Pubkey.default).prop
  show freeze (Initialize.instruction_data self.authority self.group_address) 66 = _
  apply List.ext_getElem
  · simp [freeze_length, hA, hG]
  · intro i h1 h2
    rw [freeze_getElem]
    rw [initialize_instruction_data_eq]
    have h66 : i < 66 := by simpa [freeze_length] using h1
    match i, h66 with
    | 0, _ => simp
    | 1, _ => simp
    | (j + 2), hj =>
      simp only [List.getElem_cons_succ]
      by_cases hj32 : j < 32
      · rw [List.getElem_append_left (by omega)]
        rw [if_neg (by omega), if_neg (by omega), if_pos (by omega)]
        simp only [Option.getD_some]
        have : j + 2 - 2 = j := by omega
        rw [this, List.getD_eq_getElem _ _ (by omega)]
      · rw [List.getElem_append_right (by omega)]
        rw [if_neg (by omega), if_neg (by omega), if_neg (by omega), if_pos (by omega)]
        simp only [Option.getD_some]
        rw [List.getD_eq_getElem _ _ (by omega)]
        congr 1
        omega

/-- The payload handed to the CPI channel by Update, as a flat byte
list: both discriminators followed by the single 32-byte address field,
with the zero sentinel substituted when the field is absent. -/
theorem update_payload_eq (self : Update) :
    self.instruction.data =
      40 :: 1 :: (self.group_address.getD Pubkey.default).val := by
  have hG : (self.group_address.getD Pubkey.default).val.length = 32 :=
    (self.group_address.getD Pubkey.default).prop
  show freeze (Update.instruction_data self.group_address) 34 = _
  apply List.ext_getElem
  · simp [freeze_length, hG]
  · intro i h1 h2
    rw [freeze_getElem]
    rw [update_instruction_data_eq]
    have h34 : i < 34 := by simpa [freeze_length] using h1
    match i, h34 with
    | 0, _ => simp
    | 1, _ => simp
    | (j + 2), hj =>
      simp only [List.getElem_cons_succ]
      rw [if_neg (by omega), if_neg (by omega), if_pos (by omega)]
      simp only [Option.getD_some]
      have : j + 2 - 2 = j := by omega
      rw [this, List.getD_eq_getElem _ _ (by omega)]

theorem mapM_isSome_eq (f : Nat → Option Nat) (l : List Nat)
    (h : ∀ x ∈ l, (f x).isSome) :
    l.mapM f = some (l.map fun x => (f x).getD 0) := by
  induction l with
  | nil => rfl
  | cons x xs ih =>
    have hx : (f x).isSome := h x (List.mem_cons_self x xs)
    rcases hfx : f x with _ | v
    · rw [hfx] at hx
      exact absurd hx (by simp)
    · rw [List.mapM_cons, hfx, ih (fun y hy => h y (List.mem_cons_of_mem x hy))]
      simp [hfx]

/-- When every slot below len has been written, reading the buffer with
uninitialized-slot detection succeeds and yields exactly the payload the
channel is handed. -/
theorem finalize_eq_freeze (buf : Buffer) (len : Nat)
    (h : ∀ i, i < len → (buf i).isSome) :
    finalize buf len = some (freeze buf len) := by
  unfold finalize freeze
  exact mapM_isSome_eq buf (List.range len) (fun i hi => h i (List.mem_range.mp hi))

/-! The claim theorems. -/

/-- C1: for every authority address A and group address G, the payload
built by Initialize.invoke_signed with authority = some A and
group_address = some G has byte 0 equal to 40, byte 1 equal to 0, bytes
2..34 equal to A, and bytes 34..66 equal to G. -/
theorem claim_initialize_roundtrip (mint : AccountInfo) (A G : Pubkey) :
    (Initialize.mk mint (some A) (some G)).instruction.data = 40 :: 0 :: (A.val ++ G.val)
    ∧ (((Initialize.mk mint (some A) (some G)).instruction.data.drop 2).take 32 = A.val
    ∧ (Initialize.mk mint (some A) (some G)).instruction.data.drop 34 = G.val) := by
  have h : (Initialize.mk mint (some A) (some G)).instruction.data =
      40 :: 0 :: (A.val ++ G.val) := initialize_payload_eq _
  refine ⟨h, ?_, ?_⟩
  · rw [h]
    show (A.val ++ G.val).take 32 = A.val
    exact List.take_left' A.prop
  · rw [h]
    show ((40 :: 0 :: A.val) ++ G.val).drop 34 = G.val
    exact List.drop_left' (by simp [A.prop])

/-- C2 (amended): even when the target buffer is not owned by the
expected Token-2022 program, Initialize.invoke_signed and
Update.invoke_signed do not fail with InvalidOwner: they perform no
ownership check, dispatch the built instruction to the CPI channel
unconditionally, and return the channel's result verbatim. -/
theorem claim_builders_no_owner_check (cpi : CpiChannel) (ex : Initialize)
    (u : Update) (signers : List Signer)
    (h_1 : ex.mint.is_owned_by TOKEN_2022_PROGRAM_ID = false)
    (h_2 : u.mint.is_owned_by TOKEN_2022_PROGRAM_ID = false) :
    Initialize.invoke_signed cpi ex signers =
      cpi (Initialize.instruction ex) [ex.mint] signers
    ∧ Update.invoke_signed cpi u signers =
      cpi (Update.instruction u) [u.mint, u.authority] signers :=
  ⟨rfl, rfl⟩

/-- C2 witness: the amended statement at a concrete non-owned account
and the always-succeeding channel. -/
theorem claim_builders_no_owner_check_witness :
    Initialize.invoke_signed okChannel ⟨nonOwnedMint, none, none⟩ [] =
      okChannel (Initialize.instruction ⟨nonOwnedMint, none, none⟩) [nonOwnedMint] []
    ∧ Update.invoke_signed okChannel ⟨nonOwnedMint, nonOwnedMint, none⟩ [] =
      okChannel (Update.instruction ⟨nonOwnedMint, nonOwnedMint, none⟩)
        [nonOwnedMint, nonOwnedMint] [] :=
  claim_builders_no_owner_check okChannel ⟨nonOwnedMint, none, none⟩
    ⟨nonOwnedMint, nonOwnedMint, none⟩ [] (by decide) (by decide)

/-- C2 counterexample: a concrete account not owned by the Token-2022
program on which both builders succeed (returning the channel's ok
result) instead of failing with InvalidOwner, refuting the claim as
stated. -/
theorem claim_builders_owner_check_counterexample :
    nonOwnedMint.is_owned_by TOKEN_2022_PROGRAM_ID = false
    ∧ Initialize.invoke_signed okChannel ⟨nonOwnedMint, none, none⟩ [] ≠
        Except.error ProgramError.InvalidAccountOwner
    ∧ Update.invoke_signed okChannel ⟨nonOwnedMint, nonOwnedMint, none⟩ [] ≠
        Except.error ProgramError.InvalidAccountOwner
    ∧ Initialize.invoke_signed okChannel ⟨nonOwnedMint, none, none⟩ [] = Except.ok ()
    ∧ Update.invoke_signed okChannel ⟨nonOwnedMint, nonOwnedMint, none⟩ [] =
        Except.ok () := by
  refine ⟨by decide, ?_, ?_, rfl, rfl⟩
  · intro hcontra
    exact Except.noConfusion hcontra
  · intro hcontra
    exact Except.noConfusion hcontra

/-- C3: for every account whose declared owner differs from the
Token-2022 program identity, the accessor read returns the InvalidOwner
error, whatever the data bytes and the extension index hold: the
ownership check comes before any reinterpretation of the buffer. -/
theorem claim_read_invalid_owner (key owner : Pubkey) (data : List Nat)
    (index : List ExtensionIndexEntry) (h : owner ≠ TOKEN_2022_PROGRAM_ID) :
    GroupPointer.from_account_info_unchecked ⟨key, owner, data, index⟩ =
      Except.error ProgramError.InvalidAccountOwner := by
  simp [GroupPointer.from_account_info_unchecked, AccountInfo.is_owned_by, h]

/-- C3 witness: the theorem at a concrete account owned by the zero
address, with arbitrary concrete data and index. -/
theorem claim_read_invalid_owner_witness :
    GroupPointer.from_account_info_unchecked
        ⟨Pubkey.default, Pubkey.default, [1, 2, 3], []⟩ =
      Except.error ProgramError.InvalidAccountOwner :=
  claim_read_invalid_owner Pubkey.default Pubkey.default [1, 2, 3] [] (by decide)

/-- C4: for every account owned by the Token-2022 program whose
extension index has no entry matching the GroupPointer type tag with the
fixed record size, the accessor read fails with InvalidData. -/
theorem claim_read_invalid_data (a : AccountInfo)
    (hown : a.is_owned_by TOKEN_2022_PROGRAM_ID = true)
    (habs : ∀ e ∈ a.index,
      ¬(e.type_tag = GroupPointer.TYPE_TAG ∧ e.len = GroupPointer.LEN)) :
    GroupPointer.from_account_info_unchecked a =
      Except.error ProgramError.InvalidAccountData := by
  unfold GroupPointer.from_account_info_unchecked
  rw [if_neg (by simp [hown])]
  have hext : get_extension_from_bytes a.data a.index = none := by
    unfold get_extension_from_bytes
    cases hf : a.index.find? (fun e => e.type_tag = GroupPointer.TYPE_TAG) with
    | none => rfl
    | some e =>
      have hmem : e ∈ a.index := List.mem_of_find?_eq_some hf
      have htag : e.type_tag = GroupPointer.TYPE_TAG := by
        have hp := List.find?_some hf
        simpa using hp
      have hlen : e.len ≠ GroupPointer.LEN := fun hl => habs e hmem ⟨htag, hl⟩
      dsimp only
      rw [if_neg (fun hcontra => hlen hcontra.1)]
  rw [hext]

/-- C4 witness: the theorem at a concrete owned account with an empty
extension index. -/
theorem claim_read_invalid_data_witness :
    GroupPointer.from_account_info_unchecked ownedEmptyAccount =
      Except.error ProgramError.InvalidAccountData :=
  claim_read_invalid_data ownedEmptyAccount (by decide)
    (by intro e he; simp [ownedEmptyAccount] at he)

/-- C5: for every choice of the optional fields, the Update payload is
exactly 34 bytes with byte 0 = 40 and byte 1 = 1 and bytes 2..34 the
group address (zero sentinel when absent), while the Initialize payload
is exactly 66 bytes and carries 0, not 1, at byte 1. -/
theorem claim_payload_shapes (u : Update) (ex : Initialize) :
    u.instruction.data = 40 :: 1 :: (u.group_address.getD Pubkey.default).val
    ∧ (u.instruction.data.length = 34
    ∧ (ex.instruction.data.length = 66
    ∧ ex.instruction.data.getD 1 2 = 0)) := by
  have hu := update_payload_eq u
  have he := initialize_payload_eq ex
  refine ⟨hu, ?_, ?_, ?_⟩
  · rw [hu]
    simp [(u.group_address.getD Pubkey.default).prop]
  · rw [he]
    simp [(ex.authority.getD Pubkey.default).prop,
      (ex.group_address.getD Pubkey.default).prop]
  · rw [he]
    rfl

/-- C6: the account reference list is exactly the writable mint for
Initialize, and exactly the writable mint followed by the read-only
signing authority for Update. -/
theorem claim_account_metas (ex : Initialize) (u : Update) :
    ex.instruction.accounts =
      [{ pubkey := ex.mint.key, is_writable := true, is_signer := false }]
    ∧ u.instruction.accounts =
      [{ pubkey := u.mint.key, is_writable := true, is_signer := false },
       { pubkey := u.authority.key, is_writable := false, is_signer := true }] :=
  ⟨rfl, rfl⟩

/-- C7: an absent optional field is encoded as 32 zero bytes in its
fixed slot, and the payload keeps its full length: Initialize with an
absent authority carries zeros at bytes 2..34, Initialize with an absent
group address carries zeros at bytes 34..66, Update with an absent group
address carries zeros at bytes 2..34, and the lengths stay 66 and 34. -/
theorem claim_absence_zero_sentinel (mint auth : AccountInfo) (a g : Option Pubkey) :
    (Initialize.mk mint none g).instruction.data =
      40 :: 0 :: (List.replicate 32 0 ++ (g.getD Pubkey.default).val)
    ∧ ((Initialize.mk mint a none).instruction.data =
      40 :: 0 :: ((a.getD Pubkey.default).val ++ List.replicate 32 0)
    ∧ ((Initialize.mk mint a g).instruction.data.length = 66
    ∧ ((Update.mk mint auth none).instruction.data = 40 :: 1 :: List.replicate 32 0
    ∧ (Update.mk mint auth g).instruction.data.length = 34))) := by
  refine ⟨initialize_payload_eq _, initialize_payload_eq _, ?_, update_payload_eq _, ?_⟩
  · rw [initialize_payload_eq]
    simp [((Initialize.mk mint a g).authority.getD Pubkey.default).prop,
      ((Initialize.mk mint a g).group_address.getD Pubkey.default).prop]
  · rw [update_payload_eq]
    simp [((Update.mk mint auth g).group_address.getD Pubkey.default).prop]

/-- C8: every byte of the fixed-size payload is explicitly written
before the buffer is sliced and handed to the CPI channel: reading all
66 (Initialize) or 34 (Update) slots with uninitialized-slot detection
succeeds and yields exactly the payload the instruction carries. -/
theorem claim_all_bytes_written (mint auth : AccountInfo) (a g go : Option Pubkey) :
    finalize (Initialize.instruction_data a g) 66
        = some ((Initialize.mk mint a g).instruction.data)
    ∧ finalize (Update.instruction_data go) 34
        = some ((Update.mk mint auth go).instruction.data) := by
  constructor
  · apply finalize_eq_freeze
    intro i hi
    rw [initialize_instruction_data_eq]
    split_ifs <;> first | rfl | (exfalso; omega)
  · apply finalize_eq_freeze
    intro i hi
    rw [update_instruction_data_eq]
    split_ifs <;> first | rfl | (exfalso; omega)

/-- C9: each builder invokes the CPI channel exactly once, on the built
instruction and account list, and returns the channel's result to the
caller unchanged. -/
theorem claim_cpi_result_verbatim (cpi : CpiChannel) (ex : Initialize)
    (u : Update) (signers : List Signer) :
    Initialize.invoke_signed cpi ex signers =
      cpi (Initialize.instruction ex) [ex.mint] signers
    ∧ Update.invoke_signed cpi u signers =
      cpi (Update.instruction u) [u.mint, u.authority] signers :=
  ⟨rfl, rfl⟩

/-- C10: supplying the all-zero address for an optional field yields a
payload byte-for-byte identical to leaving the field absent, for the
authority and group address of Initialize and the group address of
Update. -/
theorem claim_zero_sentinel_indistinguishable (mint auth : AccountInfo)
    (a g : Option Pubkey) :
    (Initialize.mk mint (some Pubkey.default) g).instruction.data =
      (Initialize.mk mint none g).instruction.data
    ∧ ((Initialize.mk mint a (some Pubkey.default)).instruction.data =
      (Initialize.mk mint a none).instruction.data
    ∧ (Update.mk mint auth (some Pubkey.default)).instruction.data =
      (Update.mk mint auth none).instruction.data) :=
  ⟨rfl, rfl, rfl⟩

end GroupPointerSpec
